import Mathlib

/-!
Verification of the autoagent prompt-execution subsystem.

Rust strings are modelled as lists of characters (`Str`); byte indices that
the Rust code stores (`len()`, slice offsets) always fall on character
boundaries in the source, so character-level lengths and drops model them
faithfully.  Fallible operations return `Except`.
-/

abbrev Str := List Char

/-- Rust `str::trim`: remove leading and trailing whitespace (the ASCII
whitespace classes model the Unicode predicate for the streams at hand). -/
def trimStr (s : Str) : Str :=
  ((s.dropWhile Char.isWhitespace).reverse.dropWhile Char.isWhitespace).reverse

/-- True when the last character of `s` is `c` (Rust `str::ends_with(char)`). -/
def lastIs (s : Str) (c : Char) : Bool :=
  match s.getLast? with
  | some d => d = c
  | none => false

/-- Index of the first occurrence of the two-character pattern `**`
(Rust `str::find("**")`, specialised to the only pattern the source uses). -/
def find2 : Str → Option Nat
  | [] => none
  | [_] => none
  | c :: d :: rest =>
      if c = '*' ∧ d = '*' then some 0 else (find2 (d :: rest)).map (· + 1)

/-- Rust `str::contains("**")`, expressed through `find2`. -/
def hasStars (s : Str) : Bool :=
  (find2 s).isSome

/-- True when `pat` occurs contiguously inside `s` (substring containment). -/
def isSubStr (pat : Str) : Str → Bool
  | [] => pat = []
  | c :: rest => pat.isPrefixOf (c :: rest) || isSubStr pat rest

/-- Rust `str::split_inclusive('\n')`: pieces end with the newline, the final
piece may lack it, the empty string yields no pieces. -/
def siAux (cur : Str) : Str → List Str
  | [] => if cur = [] then [] else [cur.reverse]
  | c :: rest =>
      if c = '\n' then (c :: cur).reverse :: siAux [] rest
      else siAux (c :: cur) rest

def splitInclusive (s : Str) : List Str := siAux [] s

theorem find2_le {s : Str} {e : Nat} (h : find2 s = some e) : e + 2 ≤ s.length := by
  induction s generalizing e with
  | nil => simp [find2] at h
  | cons c rest ih =>
    cases rest with
    | nil => simp [find2] at h
    | cons d tail =>
      rw [find2] at h
      split at h
      · simp only [Option.some.injEq] at h
        simp [List.length_cons]
        omega
      · rcases Option.map_eq_some'.mp h with ⟨e', he', rfl⟩
        have := ih he'
        simp only [List.length_cons] at *
        omega

/-- Inner loop of Rust `strip_bold_blocks`; `remaining` starts at a `**`. -/
def sbbLoop (remaining acc : Str) : Str :=
  match h1 : find2 (remaining.drop 2) with
  | none => acc ++ '*' :: '*' :: remaining.drop 2
  | some e =>
    match find2 ((remaining.drop 2).drop (e + 2)) with
    | none => acc ++ ("...\n\n".data) ++ (remaining.drop 2).drop (e + 2)
    | some st =>
        sbbLoop (((remaining.drop 2).drop (e + 2)).drop st)
          (acc ++ ("...\n\n".data) ++ ((remaining.drop 2).drop (e + 2)).take st)
termination_by remaining.length
decreasing_by
  have hb := find2_le h1
  simp only [List.length_drop] at *
  omega

/-- Rust `strip_bold_blocks`: replaces each complete `**…**` block with
an ellipsis paragraph break, leaving a trailing unmatched `**` verbatim. -/
def strip_bold_blocks (text : Str) : Str :=
  match find2 text with
  | none => text
  | some first => sbbLoop (text.drop first) (text.take first)

/-- Loop of Rust `strip_bold_markers`. -/
def sbmLoop (remaining : Str) : Str :=
  match h : find2 remaining with
  | some st => remaining.take st ++ sbmLoop (remaining.drop (st + 2))
  | none => remaining
termination_by remaining.length
decreasing_by
  have hb := find2_le h
  simp only [List.length_drop]
  omega

/-- Rust `strip_bold_markers`: deletes every `**` marker. -/
def strip_bold_markers (text : Str) : Str :=
  match find2 text with
  | none => text
  | some first => text.take first ++ sbmLoop (text.drop first)

/-- Rust `append_agent_fragment`: pushes each line of `text` prefixed with
the unit-separator tag onto `result`. -/
def append_agent_fragment (result : Str) (text : Str) : Str :=
  (splitInclusive text).foldl (fun r line => r ++ '\x1F' :: line) result

/-- Rust `agent_fragment_matches`: checks that `marked` is exactly `text`
with every line prefixed by the unit-separator tag. -/
def agent_fragment_matches (marked text : Str) : Bool :=
  afmGo marked (splitInclusive text)
where
  afmGo : Str → List Str → Bool
    | remaining, [] => remaining = []
    | remaining, line :: rest =>
      match remaining with
      | c :: r =>
        if c = '\x1F' then
          if line.isPrefixOf r then afmGo (r.drop line.length) rest else false
        else false
      | [] => false

/-- State of Rust `ResponseBuffers` (prompt/buffers.rs). -/
structure ResponseBuffers where
  reasoning : Str
  joined_fragments : Str
  last_fragment_start : Option Nat
  deltas : Str
  content_start : Nat
  display : Str
  display_dirty : Bool
deriving DecidableEq

/-- `ResponseBuffers::default()`. -/
def initBuffers : ResponseBuffers :=
  ⟨[], [], none, [], 0, [], false⟩

namespace ResponseBuffers

/-- Rust `ResponseBuffers::last_fragment`. -/
def last_fragment (b : ResponseBuffers) : Option Str :=
  b.last_fragment_start.map (fun st => b.joined_fragments.drop st)

/-- Rust `ResponseBuffers::push_fragment_inner`. -/
def push_fragment_inner (b : ResponseBuffers) (text : Str) (agent : Bool) :
    ResponseBuffers :=
  if trimStr text = [] then b
  else
    let text := strip_bold_blocks text
    if trimStr text = [] then b
    else if agent then
      if (b.last_fragment.map (fun last => agent_fragment_matches last text)) =
          some true then b
      else
        let jf := if b.joined_fragments = [] then b.joined_fragments
                  else b.joined_fragments ++ ('\n' :: '\n' :: [])
        let st := jf.length
        { b with joined_fragments := append_agent_fragment jf text,
                 last_fragment_start := some st,
                 display_dirty := true }
    else
      if b.last_fragment = some text then b
      else
        let jf := if b.joined_fragments = [] then b.joined_fragments
                  else b.joined_fragments ++ ('\n' :: '\n' :: [])
        { b with joined_fragments := jf ++ text,
                 last_fragment_start := some jf.length,
                 display_dirty := true }

/-- Rust `ResponseBuffers::push_fragment`. -/
def push_fragment (b : ResponseBuffers) (text : Str) : ResponseBuffers :=
  b.push_fragment_inner text false

/-- Rust `ResponseBuffers::push_agent_fragment`. -/
def push_agent_fragment (b : ResponseBuffers) (text : Str) : ResponseBuffers :=
  b.push_fragment_inner text true

/-- Rust `ResponseBuffers::push_delta`. -/
def push_delta (b : ResponseBuffers) (text : Str) : ResponseBuffers :=
  if text = [] ∨ text.isSuffixOf b.deltas then b
  else
    let b1 :=
      if b.reasoning ≠ [] ∧ b.content_start = b.deltas.length then
        let d := if lastIs b.deltas '\n' then b.deltas else b.deltas ++ ['\n']
        let d := d ++ ['\n']
        { b with deltas := d, content_start := d.length }
      else b
    { b1 with deltas := b1.deltas ++ text, display_dirty := true }

/-- Rust `self.reasoning.strip_suffix("...").unwrap_or(&self.reasoning)`. -/
def stripDots (s : Str) : Str :=
  if ("...".data).isSuffixOf s then s.take (s.length - 3) else s

/-- Rust `ResponseBuffers::push_reasoning`. -/
def push_reasoning (b : ResponseBuffers) (text : Str) : ResponseBuffers :=
  let trimmed := trimStr text
  if trimmed = [] then b
  else
    let cleaned := strip_bold_markers trimmed
    let content := trimStr cleaned
    if content = [] then b
    else
      let existing := stripDots b.reasoning
      if content.isSuffixOf existing then b
      else
        let reasoning :=
          (if b.reasoning = [] then b.reasoning else b.reasoning ++ ['\n']) ++
            content ++ ("...".data)
        let d := if b.deltas ≠ [] ∧ ¬ lastIs b.deltas '\n'
                 then b.deltas ++ ['\n'] else b.deltas
        let d := d ++ '\x1E' :: content ++ ("...\n".data)
        { b with reasoning := reasoning, deltas := d,
                 content_start := d.length, display_dirty := true }

/-- Rust `ResponseBuffers::push_reasoning_delta`. -/
def push_reasoning_delta (b : ResponseBuffers) (text : Str) : ResponseBuffers :=
  if text = [] ∨ text.isSuffixOf b.reasoning then b
  else
    let d := (splitInclusive text).foldl
      (fun d line =>
        (if d = [] ∨ lastIs d '\n' then d ++ ['\x1E'] else d) ++ line)
      b.deltas
    { b with reasoning := b.reasoning ++ text, deltas := d,
             content_start := d.length, display_dirty := true }

/-- Rust `ResponseBuffers::has_deltas`. -/
def has_deltas (b : ResponseBuffers) : Bool :=
  b.deltas ≠ []

/-- Rust `ResponseBuffers::reasoning_display_len`. -/
def reasoning_display_len (b : ResponseBuffers) : Nat :=
  (splitInclusive b.reasoning).foldl
    (fun n line => n + 1 + line.length + (if lastIs line '\n' then 0 else 1)) 0

/-- Rust `ResponseBuffers::visible_len`. -/
def visible_len (b : ResponseBuffers) : Nat :=
  if b.deltas ≠ [] then b.deltas.length
  else if b.reasoning = [] then b.joined_fragments.length
  else b.reasoning_display_len + 1 + b.joined_fragments.length

/-- The reasoning lines tagged with the record separator, each terminated
with a newline: the loop shared by `rebuild_display` and `into_response`. -/
def tagLines (r : Str) : Str :=
  (splitInclusive r).foldl
    (fun d line => d ++ '\x1E' :: (line ++ (if lastIs line '\n' then [] else ['\n'])))
    []

/-- Rust `ResponseBuffers::rebuild_display`. -/
def rebuild_display (b : ResponseBuffers) : ResponseBuffers :=
  { b with display := tagLines b.reasoning ++ '\n' :: b.joined_fragments,
           display_dirty := false }

/-- Rust `ResponseBuffers::visible_text`; returns the text together with the
buffer state after the lazy display rebuild. -/
def visible_text (b : ResponseBuffers) : Str × ResponseBuffers :=
  if b.deltas ≠ [] then (b.deltas, b)
  else if b.reasoning = [] then (b.joined_fragments, b)
  else
    let b := if b.display_dirty then b.rebuild_display else b
    (b.display, b)

/-- Rust `ResponseBuffers::into_response`. -/
def into_response (b : ResponseBuffers) : Str :=
  if b.reasoning = [] then
    if b.joined_fragments = [] then
      if hasStars b.deltas then strip_bold_blocks b.deltas
      else b.deltas
    else b.joined_fragments
  else
    let output :=
      if b.joined_fragments ≠ [] then b.joined_fragments
      else if b.content_start < b.deltas.length then
        strip_bold_blocks (b.deltas.drop b.content_start)
      else []
    tagLines b.reasoning ++ '\n' :: output

end ResponseBuffers

/-- State of Rust `PromptStreamState` (prompt/state.rs); the storage-capacity
shrinking in `clear` is a memory detail with no observable effect on `text`. -/
structure PromptStreamState where
  prompt_id : Option Nat
  text : Str
deriving DecidableEq

namespace PromptStreamState

/-- Rust `PromptStreamState::start`. -/
def start (s : PromptStreamState) (prompt_id : Nat) : PromptStreamState :=
  { s with prompt_id := some prompt_id, text := [] }

/-- Rust `PromptStreamState::update`; returns the bool result with the new state. -/
def update (s : PromptStreamState) (prompt_id : Nat) (text : Str) :
    Bool × PromptStreamState :=
  if s.prompt_id ≠ some prompt_id then (false, s)
  else if s.text.isPrefixOf text then
    (true, { s with text := s.text ++ text.drop s.text.length })
  else
    (true, { s with text := text })

/-- Rust `PromptStreamState::clear`. -/
def clear (s : PromptStreamState) (prompt_id : Nat) : PromptStreamState :=
  if s.prompt_id = some prompt_id then { s with prompt_id := none, text := [] }
  else s

end PromptStreamState

/-- serde_json `Value`, restricted to the shapes the event protocol uses
(numbers as integers; the code never reads numeric fields). -/
inductive Json where
  | null
  | bool (b : Bool)
  | num (n : Int)
  | str (s : Str)
  | arr (items : List Json)
  | obj (fields : List (Str × Json))

/-- Lookup of a key in a JSON object field list (serde_json `Map::get`). -/
def jget (fields : List (Str × Json)) (key : Str) : Option Json :=
  (fields.find? (fun p => p.1 = key)).map Prod.snd

namespace Json

/-- serde_json `Value::get(key)`: object lookup, `none` on non-objects. -/
def get : Json → Str → Option Json
  | .obj fields, key => jget fields key
  | _, _ => none

/-- serde_json `Value::as_str`. -/
def asStr : Json → Option Str
  | .str s => some s
  | _ => none

end Json

theorem sizeOf_jget {fields : List (Str × Json)} {k : Str} {c : Json}
    (h : jget fields k = some c) : sizeOf c < 1 + sizeOf fields := by
  rcases Option.map_eq_some'.mp h with ⟨p, hp, rfl⟩
  have hm := List.mem_of_find?_eq_some hp
  have hs := List.sizeOf_lt_of_mem hm
  cases p with
  | mk a b => simp at hs ⊢; omega

mutual
/-- Rust `collect_reasoning_text` (buffers.rs): pulls reasoning text out of
an event subtree, recursing into summary, content, contents and items. -/
def collect_reasoning_text : Json → ResponseBuffers → ResponseBuffers
  | .obj fields, response =>
    let r0 := match (jget fields "text".data).bind Json.asStr with
      | some t => response.push_reasoning t
      | none => response
    let r1 := match hs : jget fields "summary".data with
      | some child => collect_reasoning_text child r0
      | none => r0
    let r2 := match hc : jget fields "content".data with
      | some child => collect_reasoning_text child r1
      | none => r1
    let r3 := match hcs : jget fields "contents".data with
      | some child => collect_reasoning_text child r2
      | none => r2
    match hi : jget fields "items".data with
      | some child => collect_reasoning_text child r3
      | none => r3
  | .arr items, response => collect_reasoning_list items response
  | _, response => response
termination_by j _ => sizeOf j
decreasing_by
  all_goals simp only [Json.obj.sizeOf_spec, Json.arr.sizeOf_spec]
  all_goals try exact sizeOf_jget (by assumption)
  all_goals omega

/-- Array loop of Rust `collect_reasoning_text`. -/
def collect_reasoning_list : List Json → ResponseBuffers → ResponseBuffers
  | [], response => response
  | j :: rest, response =>
      collect_reasoning_list rest (collect_reasoning_text j response)
termination_by l _ => sizeOf l
decreasing_by
  all_goals simp only [List.cons.sizeOf_spec]
  all_goals omega
end

mutual
/-- Rust `collect_response_text` (buffers.rs): reconciles one event subtree
into the response buffers, dispatching on the event type and recursing into
the container keys content, contents, item, items, message, messages, output. -/
def collect_response_text : Json → ResponseBuffers → ResponseBuffers
  | .obj fields, response =>
    let kind := ((jget fields "type".data).bind Json.asStr).getD []
    if isSubStr ("reasoning".data) kind then
      let r0 := match (jget fields "text".data).bind Json.asStr with
        | some t => response.push_reasoning t
        | none => response
      let r1 := match (jget fields "delta".data).bind Json.asStr with
        | some d => r0.push_reasoning_delta d
        | none => r0
      match jget fields "summary".data with
        | some summary => collect_reasoning_text summary r1
        | none => r1
    else
      let r0 := match (jget fields "output_text".data).bind Json.asStr with
        | some t => response.push_fragment t
        | none => response
      let r1 := match (jget fields "delta".data).bind Json.asStr with
        | some d => r0.push_delta d
        | none => r0
      let r2 :=
        if kind = "output_text".data ∨ kind = "text".data ∨
            kind = "agent_message".data ∨ kind = "assistant_message".data then
          match (jget fields "text".data).bind Json.asStr with
          | some t =>
              if kind = "agent_message".data then r1.push_agent_fragment t
              else r1.push_fragment t
          | none => r1
        else r1
      let r3 :=
        if kind = "message".data ∧
            (jget fields "role".data).bind Json.asStr = some ("assistant".data) then
          match (jget fields "text".data).bind Json.asStr with
          | some t => r2.push_fragment t
          | none => r2
        else r2
      let r4 := match h1 : jget fields "content".data with
        | some child => collect_response_text child r3
        | none => r3
      let r5 := match h2 : jget fields "contents".data with
        | some child => collect_response_text child r4
        | none => r4
      let r6 := match h3 : jget fields "item".data with
        | some child => collect_response_text child r5
        | none => r5
      let r7 := match h4 : jget fields "items".data with
        | some child => collect_response_text child r6
        | none => r6
      let r8 := match h5 : jget fields "message".data with
        | some child => collect_response_text child r7
        | none => r7
      let r9 := match h6 : jget fields "messages".data with
        | some child => collect_response_text child r8
        | none => r8
      match h7 : jget fields "output".data with
        | some child => collect_response_text child r9
        | none => r9
  | .arr items, response => collect_response_list items response
  | _, response => response
termination_by j _ => sizeOf j
decreasing_by
  all_goals simp only [Json.obj.sizeOf_spec, Json.arr.sizeOf_spec]
  all_goals try exact sizeOf_jget (by assumption)
  all_goals omega

/-- Array loop of Rust `collect_response_text`. -/
def collect_response_list : List Json → ResponseBuffers → ResponseBuffers
  | [], response => response
  | j :: rest, response =>
      collect_response_list rest (collect_response_text j response)
termination_by l _ => sizeOf l
decreasing_by
  all_goals simp only [List.cons.sizeOf_spec]
  all_goals omega
end

/-- Mutable state of the `prompt_codex` stdout loop (execution.rs): the
response accumulator, the first captured error-event message, the resolved
session id, and the shared stream state the loop publishes snapshots into. -/
structure LoopState where
  response : ResponseBuffers
  failure_message : Option Str
  resolved : Option Str
  stream : PromptStreamState

/-- The protocol-error message `prompt_codex` raises on a JSON parse failure:
it names the 1-based line number, the parser message, and the trimmed line. -/
def msgInvalid (n : Nat) (err : Str) (trimmed : Str) : Str :=
  ("Invalid JSON event on line ".data) ++ (Nat.repr n).data ++ (": ".data) ++
    err ++ ("; line: ".data) ++ trimmed

/-- The error-event capture in the `prompt_codex` loop: when the event type
is "error" and no failure message is captured yet, take the event's message
field (possibly absent, leaving capture open). -/
def stepFailure (event : Json) (fm : Option Str) : Option Str :=
  match (event.get "type".data).bind Json.asStr with
  | some kind =>
    if kind = "error".data ∧ fm = none then
      (event.get "message".data).bind Json.asStr
    else fm
  | none => fm

/-- The session-id capture in the `prompt_codex` loop: a "thread.started"
event's thread_id resolves the session id only when none is resolved yet. -/
def stepResolved (event : Json) (res : Option Str) : Option Str :=
  match (event.get "type".data).bind Json.asStr with
  | some kind =>
    if kind = "thread.started".data ∧ res = none then
      match (event.get "thread_id".data).bind Json.asStr with
      | some tid => some tid
      | none => res
    else res
  | none => res

/-- One iteration of the `prompt_codex` stdout loop for the line numbered `n`
(1-based).  `parse` abstracts the external serde_json line parser.  The
channel send and repaint on a successful stream update are I/O effects with
no bearing on the loop state. -/
def processLine (parse : Str → Except Str Json) (prompt_id : Nat) (n : Nat)
    (line : Str) (st : LoopState) : Except Str LoopState :=
  let trimmed := trimStr line
  if trimmed = [] then .ok st
  else
    let previous_visible_len := st.response.visible_len
    let previous_has_deltas := st.response.has_deltas
    match parse trimmed with
    | .error e => .error (msgInvalid n e trimmed)
    | .ok event =>
      let failure_message := stepFailure event st.failure_message
      let resolved := stepResolved event st.resolved
      let response := collect_response_text event st.response
      if response.visible_len ≠ 0 ∧
          (response.visible_len ≠ previous_visible_len ∨
            response.has_deltas ≠ previous_has_deltas) then
        let vt := response.visible_text
        let upd := st.stream.update prompt_id vt.1
        .ok ⟨vt.2, failure_message, resolved, upd.2⟩
      else
        .ok ⟨response, failure_message, resolved, st.stream⟩

/-- The `prompt_codex` stdout loop: reads the remaining lines, numbering them
from `n + 1`, aborting on the first JSON parse failure. -/
def runLines (parse : Str → Except Str Json) (prompt_id : Nat) :
    Nat → List Str → LoopState → Except Str LoopState
  | _, [], st => .ok st
  | n, l :: rest, st =>
    match processLine parse prompt_id (n + 1) l st with
    | .error e => .error e
    | .ok st => runLines parse prompt_id (n + 1) rest st

/-- Initial loop state of `prompt_codex`: default buffers, no failure
message captured, the resolved session id seeded with the caller's. -/
def initLoopState (session_id : Option Str) (stream : PromptStreamState) :
    LoopState :=
  ⟨initBuffers, none, session_id, stream⟩

/-- Rust `prompt_codex` (execution.rs), modelled over the data the process
produced: its stdout lines, exit status (`exit_success` plus the display
text of the status), and the collected stderr text.  Spawning, the display
wake lock, the running-prompt registration and the child reaping are
process/OS effects outside the returned value. -/
def prompt_codex (parse : Str → Except Str Json) (prompt_id : Nat)
    (session_id : Option Str) (lines : List Str) (exit_success : Bool)
    (exit_status_text : Str) (stderr_text : Str)
    (stream : PromptStreamState) : Except Str (Str × Option Str) :=
  match runLines parse prompt_id 0 lines (initLoopState session_id stream) with
  | .error e => .error e
  | .ok st =>
    if ¬ exit_success then
      .error (if stderr_text ≠ [] then stderr_text
              else st.failure_message.getD
                (("codex exited with ".data) ++ exit_status_text))
    else
      .ok (st.response.into_response, st.resolved)

/-- The message of the first error event carrying a string message among the
given stdout lines, mirroring how the loop fills `failure_message`: blank
lines are skipped, an error event without a string message leaves capture
open, and nothing is captured past a line that fails to parse. -/
def firstErrorMessage (parse : Str → Except Str Json) : List Str → Option Str
  | [] => none
  | l :: rest =>
    if trimStr l = [] then firstErrorMessage parse rest
    else
      match parse (trimStr l) with
      | .ok e => (stepFailure e none).or (firstErrorMessage parse rest)
      | .error _ => none

/-- Rust `RunningPrompt` (prompt/state.rs). -/
structure RunningPrompt where
  id : Nat
  pid : Nat
deriving DecidableEq

/-- Modelled from the spec: the constant `CANCELLED_TEXT` lives in the
`config` module, which is not among the provided sources; the spec fixes no
concrete value and none of the properties proved here depend on it. -/
def CANCELLED_TEXT : Str := "Cancelled".data

/-- Rust `append_cancelled_text` (execution.rs). -/
def append_cancelled_text (input : Str) : Str :=
  let input := if input = "...".data then [] else input
  let input :=
    if input ≠ [] then
      (if lastIs input '\n' then input else input ++ ['\n']) ++ ['\n']
    else input
  input ++ CANCELLED_TEXT

/-- The slice of Rust `AutoAgentApp` state that `cancel_active_prompt`
(app/events.rs) reads or writes.  The mutex-guarded running-prompt slot and
shared stream state are modelled by value, as the claims concern the
sequential behaviour of a single cancel call. -/
structure AppState where
  running_prompt : Option RunningPrompt
  active_prompt_id : Option Nat
  busy : Bool
  locked : Bool
  pending_started : Bool
  stream_notification_pending : Bool
  render_buffer : Str
  render_step : Option Nat
  output : Str
  shared_stream : PromptStreamState

/-- Rust `AutoAgentApp::clear_render_buffer` (app/mod.rs); capacity
shrinking is a memory detail with no observable effect. -/
def clear_render_buffer (app : AppState) : AppState :=
  { app with render_buffer := [], render_step := none }

/-- Rust `AutoAgentApp::cancel_active_prompt` (app/events.rs): takes the
running-prompt record (no-op when absent), resets the local activity flags,
appends the cancelled marker to the output, clears the shared stream state
for the taken id, and hands the recorded pid to a background kill thread
(an OS effect outside this state).  Layout invalidation and window resizing
touch only the excluded UI geometry. -/
def cancel_active_prompt (app : AppState) : AppState :=
  match app.running_prompt with
  | none => app
  | some rp =>
    let app := { app with running_prompt := none,
                          active_prompt_id := none,
                          busy := false,
                          locked := false,
                          pending_started := false,
                          stream_notification_pending := false }
    let app := clear_render_buffer app
    let app := { app with output := append_cancelled_text app.output }
    { app with shared_stream := app.shared_stream.clear rp.id }

/-- C2: update(id, text) on the shared stream state is a no-op returning
false (text and active id unchanged) when id differs from the active id;
when id matches it returns true and either appends exactly the new suffix
of `text` when the stored text is a prefix of it, or replaces the stored
text wholesale by `text` otherwise; the active id is never changed. -/
theorem c2_update_guard_and_extend (s : PromptStreamState) (pid : Nat) (text : Str) :
    (s.prompt_id ≠ some pid → s.update pid text = (false, s)) ∧
    (s.prompt_id = some pid →
      (s.update pid text).1 = true ∧
      (s.update pid text).2.prompt_id = s.prompt_id ∧
      (s.text.isPrefixOf text = true →
        (s.update pid text).2.text = s.text ++ text.drop s.text.length) ∧
      (s.text.isPrefixOf text = false → (s.update pid text).2.text = text)) := by
  unfold PromptStreamState.update
  refine ⟨fun h => ?_, fun h => ?_⟩
  · simp [h]
  · simp only [h, ne_eq, not_true_eq_false, if_false, ite_not]
    split <;> simp_all

/-- Witness for C2 at concrete inputs: a mismatched id leaves the state
untouched and returns false; a matching id with a prefix-extending text
returns true and stores the full new text. -/
theorem c2_update_witness :
    PromptStreamState.update ⟨some 1, "ab".data⟩ 2 ("abc".data) =
      (false, ⟨some 1, "ab".data⟩) ∧
    (PromptStreamState.update ⟨some 1, "ab".data⟩ 1 ("abc".data)).1 = true ∧
    (PromptStreamState.update ⟨some 1, "ab".data⟩ 1 ("abc".data)).2.text =
      "abc".data := by
  refine ⟨(c2_update_guard_and_extend ⟨some 1, "ab".data⟩ 2 ("abc".data)).1 (by decide),
    ((c2_update_guard_and_extend ⟨some 1, "ab".data⟩ 1 ("abc".data)).2 rfl).1, ?_⟩
  have h := ((c2_update_guard_and_extend ⟨some 1, "ab".data⟩ 1 ("abc".data)).2 rfl).2.2.1
    (by decide)
  rw [h]; decide

/-- C6: cancel with no running-prompt record changes nothing; cancel while
running-prompt id 5 is recorded and shared stream id 5 is active clears the
record and the shared stream state for id 5, so any later update(5, t)
returns false and leaves the stream untouched, while an update(5, t) issued
before the cancel (id 5 still active) returns true. -/
theorem c6_cancel_clears_record_and_stream (app : AppState) :
    (app.running_prompt = none → cancel_active_prompt app = app) ∧
    (∀ pid, app.running_prompt = some ⟨5, pid⟩ →
      app.shared_stream.prompt_id = some 5 →
      (cancel_active_prompt app).running_prompt = none ∧
      ∀ t, ((cancel_active_prompt app).shared_stream.update 5 t) =
        (false, (cancel_active_prompt app).shared_stream)) ∧
    (app.shared_stream.prompt_id = some 5 →
      ∀ t, (app.shared_stream.update 5 t).1 = true) := by
  refine ⟨fun h => ?_, fun pid h hs => ?_, fun hs t => ?_⟩
  · unfold cancel_active_prompt
    rw [h]
  · unfold cancel_active_prompt
    rw [h]
    refine ⟨rfl, fun t => ?_⟩
    simp [clear_render_buffer, PromptStreamState.clear, PromptStreamState.update, hs]
  · unfold PromptStreamState.update
    rw [hs, if_neg (by simp)]
    split <;> rfl

/-- Witness for C6 at a concrete application state with running prompt 5
and shared stream 5 holding streamed text. -/
theorem c6_cancel_witness :
    (cancel_active_prompt ⟨none, some 5, true, true, true, true, "r".data,
        some 3, "out".data, ⟨some 5, "txt".data⟩⟩ =
      ⟨none, some 5, true, true, true, true, "r".data, some 3, "out".data,
        ⟨some 5, "txt".data⟩⟩) ∧
    (cancel_active_prompt ⟨some ⟨5, 99⟩, some 5, true, true, true, true,
        "r".data, some 3, "out".data, ⟨some 5, "txt".data⟩⟩).running_prompt
      = none ∧
    ((cancel_active_prompt ⟨some ⟨5, 99⟩, some 5, true, true, true, true,
        "r".data, some 3, "out".data,
        ⟨some 5, "txt".data⟩⟩).shared_stream.update 5 ("late".data)).1 = false ∧
    ((PromptStreamState.mk (some 5) ("txt".data)).update 5 ("late".data)).1 =
      true := by
  refine ⟨(c6_cancel_clears_record_and_stream _).1 rfl, ?_, ?_, ?_⟩
  · exact (((c6_cancel_clears_record_and_stream _).2.1 99 rfl) rfl).1
  · rw [(((c6_cancel_clears_record_and_stream _).2.1 99 rfl) rfl).2 ("late".data)]
  · exact (c6_cancel_clears_record_and_stream
      ⟨none, none, false, false, false, false, [], none, [],
        ⟨some 5, "txt".data⟩⟩).2.2 rfl ("late".data)

/-- C1 counterexample: the delta-monotonicity claim quantifies over every
accumulator state, but in a state holding only a fragment (raw delta stream
empty) the first push_delta switches visible_text from the fragment channel
to the delta channel instead of appending: after push_fragment "A", the
delta "B" is not a suffix of the raw stream, yet visible_text becomes "B",
not "AB". -/
theorem c1_counterexample :
    (("B".data).isSuffixOf (initBuffers.push_fragment ("A".data)).deltas
      = false) ∧
    ((initBuffers.push_fragment ("A".data)).push_delta ("B".data)).visible_text.1
      ≠ (initBuffers.push_fragment ("A".data)).visible_text.1 ++ "B".data := by
  decide

/-- C1 (amended): if delta D is already a suffix of the raw delta stream
(in particular if D is empty), visible_text() is unchanged — in every
state.  If D is not a suffix, then provided the raw delta stream is already
nonempty and no post-reasoning separator is pending (no reasoning text, or
content_start differs from the stream length), visible_text() after
push_delta(D) is the previous value with D appended; otherwise push_delta
may first switch the visible channel to the deltas or insert separator
newlines. -/
theorem c1_push_delta_monotone (b : ResponseBuffers) (D : Str) :
    (D.isSuffixOf b.deltas = true →
      (b.push_delta D).visible_text.1 = b.visible_text.1) ∧
    (b.deltas ≠ [] → (b.reasoning = [] ∨ b.content_start ≠ b.deltas.length) →
      D.isSuffixOf b.deltas = false →
      (b.push_delta D).visible_text.1 = b.visible_text.1 ++ D) := by
  constructor
  · intro h
    unfold ResponseBuffers.push_delta
    rw [if_pos (Or.inr h)]
  · intro hd hsep h
    have hD : D ≠ [] := by
      intro hD
      subst hD
      simp [List.isSuffixOf, List.isPrefixOf] at h
    unfold ResponseBuffers.push_delta
    rw [if_neg (by simp [h, hD])]
    have hb1 : ¬ (b.reasoning ≠ [] ∧ b.content_start = b.deltas.length) := by
      rcases hsep with h1 | h1 <;> simp [h1]
    rw [if_neg hb1]
    unfold ResponseBuffers.visible_text
    have : b.deltas ++ D ≠ [] := fun hc => hd (List.append_eq_nil.mp hc).1
    simp only [hd, this, ne_eq, not_false_eq_true, if_true, if_pos]

/-- Witness for C1 at a concrete state whose raw delta stream is "a": the
non-suffix delta "b" appends, the suffix delta "a" leaves the value put. -/
theorem c1_push_delta_witness :
    ((ResponseBuffers.mk [] [] none ("a".data) 0 [] false).push_delta
      ("b".data)).visible_text.1 = "ab".data ∧
    ((ResponseBuffers.mk [] [] none ("a".data) 0 [] false).push_delta
      ("a".data)).visible_text.1 = "a".data := by
  constructor
  · have h := (c1_push_delta_monotone
      (ResponseBuffers.mk [] [] none ("a".data) 0 [] false) ("b".data)).2
      (by decide) (Or.inl rfl) (by decide)
    rw [h]; decide
  · have h := (c1_push_delta_monotone
      (ResponseBuffers.mk [] [] none ("a".data) 0 [] false) ("a".data)).1
      (by decide)
    rw [h]
    decide

/-- C8 counterexample: from a fresh accumulator with reasoning "thinking"
and then fragment "answer", the two reasoning delivery routes do not give
the same into_response(): push_reasoning appends an ellipsis marker to the
reasoning line, push_reasoning_delta does not. -/
theorem c8_counterexample :
    ((initBuffers.push_reasoning ("thinking".data)).push_fragment
        ("answer".data)).into_response ≠
      ((initBuffers.push_reasoning_delta ("thinking".data)).push_fragment
        ("answer".data)).into_response := by
  decide

/-- C8 (amended): a fresh accumulator fed reasoning "thinking" and then
fragment "answer" yields into_response() = the reasoning line prefixed with
the record-separator reasoning tag, a blank line, then "answer" — on both
routes; but the full-text route records the reasoning line as
"thinking..." (ellipsis marker appended) while the delta route records it
as "thinking", so the two results differ by that marker. -/
theorem c8_reasoning_then_answer :
    ((initBuffers.push_reasoning ("thinking".data)).push_fragment
        ("answer".data)).into_response = ("\x1Ethinking...\n\nanswer".data) ∧
    ((initBuffers.push_reasoning_delta ("thinking".data)).push_fragment
        ("answer".data)).into_response = ("\x1Ethinking\n\nanswer".data) := by
  decide

theorem push_fragment_of_last {b : ResponseBuffers} {X : Str}
    (h : b.last_fragment = some (strip_bold_blocks X)) :
    b.push_fragment X = b := by
  unfold ResponseBuffers.push_fragment ResponseBuffers.push_fragment_inner
  by_cases h1 : trimStr X = []
  · simp [h1]
  · by_cases h2 : trimStr (strip_bold_blocks X) = []
    · simp [h1, h2]
    · simp [h1, h2, h]

theorem push_fragment_cases (b : ResponseBuffers) (X : Str) :
    b.push_fragment X = b ∨
    (b.push_fragment X).last_fragment = some (strip_bold_blocks X) := by
  unfold ResponseBuffers.push_fragment ResponseBuffers.push_fragment_inner
  by_cases h1 : trimStr X = []
  · left; simp [h1]
  · by_cases h2 : trimStr (strip_bold_blocks X) = []
    · left; simp [h1, h2]
    · by_cases h3 : b.last_fragment = some (strip_bold_blocks X)
      · left; simp [h1, h2, h3]
      · right
        simp only [h1, h2, h3, if_false, if_neg, Bool.false_eq_true]
        simp [ResponseBuffers.last_fragment]

theorem push_fragment_idem (b : ResponseBuffers) (X : Str) :
    (b.push_fragment X).push_fragment X = b.push_fragment X := by
  rcases push_fragment_cases b X with h | h
  · rw [h, h]
  · exact push_fragment_of_last h

/-- N repeated push_fragment(X) calls on an accumulator. -/
def pushFragmentIter (b : ResponseBuffers) (X : Str) : Nat → ResponseBuffers
  | 0 => b
  | n + 1 => (pushFragmentIter b X n).push_fragment X

theorem pushFragmentIter_eq_one (b : ResponseBuffers) (X : Str) {n : Nat}
    (h : 1 ≤ n) : pushFragmentIter b X n = b.push_fragment X := by
  induction n with
  | zero => omega
  | succ n ih =>
    cases Nat.lt_or_ge n 1 with
    | inl h0 =>
      have : n = 0 := by omega
      subst this
      rfl
    | inr h1 =>
      show (pushFragmentIter b X n).push_fragment X = _
      rw [ih h1, push_fragment_idem]

/-- C7: for every accumulator state, every string X and every N ≥ 1, N
consecutive push_fragment(X) calls yield the same visible_len() as a single
one (a fragment equal to the last pushed fragment is suppressed), and a
push_fragment whose input trims to nothing leaves the state unchanged. -/
theorem c7_push_fragment_idempotent (b : ResponseBuffers) (X : Str) (n : Nat)
    (h : 1 ≤ n) :
    (pushFragmentIter b X n).visible_len = (b.push_fragment X).visible_len ∧
    (trimStr X = [] → b.push_fragment X = b) := by
  constructor
  · rw [pushFragmentIter_eq_one b X h]
  · intro ht
    unfold ResponseBuffers.push_fragment ResponseBuffers.push_fragment_inner
    simp [ht]

/-- Witness for C7: three pushes of "hi" onto a fresh accumulator give the
visible length of one push (2), and pushing a space is a no-op. -/
theorem c7_push_fragment_witness :
    (pushFragmentIter initBuffers ("hi".data) 3).visible_len =
      (initBuffers.push_fragment ("hi".data)).visible_len ∧
    initBuffers.push_fragment (" ".data) = initBuffers ∧
    (initBuffers.push_fragment ("hi".data)).visible_len = 2 :=
  ⟨(c7_push_fragment_idempotent initBuffers ("hi".data) 3 (by decide)).1,
   (c7_push_fragment_idempotent initBuffers (" ".data) 1 (by decide)).2 (by decide),
   by decide⟩

theorem push_fragment_inner_dirty (b : ResponseBuffers) (X : Str) (a : Bool) :
    (b.push_fragment_inner X a).reasoning = b.reasoning ∧
    (b.push_fragment_inner X a = b ∨
      (b.push_fragment_inner X a).display_dirty = true) := by
  unfold ResponseBuffers.push_fragment_inner
  dsimp only
  repeat' split
  all_goals first
    | exact ⟨rfl, Or.inl rfl⟩
    | exact ⟨rfl, Or.inr rfl⟩

theorem push_delta_dirty (b : ResponseBuffers) (t : Str) :
    (b.push_delta t).reasoning = b.reasoning ∧
    (b.push_delta t = b ∨ (b.push_delta t).display_dirty = true) := by
  unfold ResponseBuffers.push_delta
  dsimp only
  repeat' split
  all_goals first
    | exact ⟨rfl, Or.inl rfl⟩
    | exact ⟨rfl, Or.inr rfl⟩

theorem push_reasoning_dirty (b : ResponseBuffers) (t : Str) :
    b.push_reasoning t = b ∨ (b.push_reasoning t).display_dirty = true := by
  unfold ResponseBuffers.push_reasoning
  dsimp only
  repeat' split
  all_goals first
    | exact Or.inl rfl
    | exact Or.inr rfl

theorem push_reasoning_delta_dirty (b : ResponseBuffers) (t : Str) :
    b.push_reasoning_delta t = b ∨
      (b.push_reasoning_delta t).display_dirty = true := by
  unfold ResponseBuffers.push_reasoning_delta
  dsimp only
  repeat' split
  all_goals first
    | exact Or.inl rfl
    | exact Or.inr rfl

/-- Accumulator states reachable from the default by the five push entry
points of `ResponseBuffers`. -/
inductive ReachableBuffers : ResponseBuffers → Prop where
  | init : ReachableBuffers initBuffers
  | frag (t : Str) {b} : ReachableBuffers b → ReachableBuffers (b.push_fragment t)
  | afrag (t : Str) {b} : ReachableBuffers b →
      ReachableBuffers (b.push_agent_fragment t)
  | delta (t : Str) {b} : ReachableBuffers b → ReachableBuffers (b.push_delta t)
  | reas (t : Str) {b} : ReachableBuffers b →
      ReachableBuffers (b.push_reasoning t)
  | rdelta (t : Str) {b} : ReachableBuffers b →
      ReachableBuffers (b.push_reasoning_delta t)

theorem reachable_dirty {b : ResponseBuffers} (h : ReachableBuffers b) :
    b.reasoning ≠ [] → b.display_dirty = true := by
  induction h with
  | init => intro hc; exact absurd rfl hc
  | frag t hb ih =>
    intro hr
    rcases (push_fragment_inner_dirty _ t false).2 with he | hd
    · rw [ResponseBuffers.push_fragment, he] at hr ⊢
      exact ih hr
    · exact hd
  | afrag t hb ih =>
    intro hr
    rcases (push_fragment_inner_dirty _ t true).2 with he | hd
    · rw [ResponseBuffers.push_agent_fragment, he] at hr ⊢
      exact ih hr
    · exact hd
  | delta t hb ih =>
    intro hr
    rcases (push_delta_dirty _ t).2 with he | hd
    · rw [he] at hr ⊢
      exact ih hr
    · exact hd
  | reas t hb ih =>
    intro hr
    rcases push_reasoning_dirty _ t with he | hd
    · rw [he] at hr ⊢
      exact ih hr
    · exact hd
  | rdelta t hb ih =>
    intro hr
    rcases push_reasoning_delta_dirty _ t with he | hd
    · rw [he] at hr ⊢
      exact ih hr
    · exact hd

theorem tag_fold_length (L : List Str) (d : Str) :
    (L.foldl (fun d line =>
        d ++ '\x1E' :: (line ++ (if lastIs line '\n' then [] else ['\n']))) d).length =
      L.foldl (fun n line =>
        n + 1 + line.length + (if lastIs line '\n' then 0 else 1)) d.length := by
  induction L generalizing d with
  | nil => rfl
  | cons l L ih =>
    simp only [List.foldl_cons]
    rw [ih]
    congr 1
    simp only [List.length_append, List.length_cons]
    split <;> simp <;> omega

/-- C9: on every accumulator state reachable by push calls, visible_len()
equals the length of the text visible_text() returns; the cached display
kept for the reasoning rendering never disagrees with the length shortcut
used for change detection. -/
theorem c9_visible_len_agrees (b : ResponseBuffers) (h : ReachableBuffers b) :
    b.visible_len = b.visible_text.1.length := by
  unfold ResponseBuffers.visible_len ResponseBuffers.visible_text
  by_cases hd : b.deltas = []
  · by_cases hr : b.reasoning = []
    · simp [hd, hr]
    · have hdirty := reachable_dirty h hr
      simp only [hd, hr, hdirty, ne_eq, not_true_eq_false, if_false, if_true,
        ite_self, if_neg, not_false_eq_true, ite_true, ite_false]
      unfold ResponseBuffers.rebuild_display ResponseBuffers.reasoning_display_len
      unfold ResponseBuffers.tagLines
      simp only [List.length_append, List.length_cons]
      rw [tag_fold_length]
      simp
      omega
  · simp [hd]

/-- Witness for C9 on the reachable state after push_reasoning "hi": both
sides are 7 (record separator, "hi", ellipsis, newline). -/
theorem c9_visible_len_witness :
    (initBuffers.push_reasoning ("hi".data)).visible_len =
      (initBuffers.push_reasoning ("hi".data)).visible_text.1.length ∧
    (initBuffers.push_reasoning ("hi".data)).visible_len = 7 :=
  ⟨c9_visible_len_agrees _ (ReachableBuffers.reas ("hi".data) ReachableBuffers.init),
   by decide⟩

theorem stepResolved_some (event : Json) (s : Str) :
    stepResolved event (some s) = some s := by
  unfold stepResolved
  split <;> simp

theorem processLine_resolved_some {parse : Str → Except Str Json}
    {pid n : Nat} {line : Str} {st st' : LoopState} {s : Str}
    (hs : st.resolved = some s) (h : processLine parse pid n line st = .ok st') :
    st'.resolved = some s := by
  unfold processLine at h
  by_cases ht : trimStr line = []
  · rw [if_pos ht] at h
    cases h
    exact hs
  · rw [if_neg ht] at h
    cases hp : parse (trimStr line) with
    | error e =>
      rw [hp] at h
      simp at h
    | ok event =>
      rw [hp] at h
      dsimp only at h
      split at h <;>
        · cases h
          dsimp only
          rw [hs, stepResolved_some]

theorem runLines_resolved_some {parse : Str → Except Str Json} {pid : Nat}
    {lines : List Str} {n : Nat} {st st' : LoopState} {s : Str}
    (hs : st.resolved = some s) (h : runLines parse pid n lines st = .ok st') :
    st'.resolved = some s := by
  induction lines generalizing n st with
  | nil =>
    unfold runLines at h
    cases h
    exact hs
  | cons l rest ih =>
    unfold runLines at h
    cases hp : processLine parse pid (n + 1) l st with
    | error e =>
      rw [hp] at h
      simp at h
    | ok st1 =>
      rw [hp] at h
      exact ih (processLine_resolved_some hs hp) h

/-- C10: when a prior session id is supplied, thread.started events never
overwrite it: a successful execution returns exactly the supplied id, so a
thread_id from the stream can resolve the session only when none was
supplied. -/
theorem c10_prior_session_id_kept (parse : Str → Except Str Json) (pid : Nat)
    (s : Str) (lines : List Str) (es : Bool) (est stderr : Str)
    (stream : PromptStreamState) (t : Str) (sid : Option Str)
    (h : prompt_codex parse pid (some s) lines es est stderr stream =
      .ok (t, sid)) :
    sid = some s := by
  unfold prompt_codex at h
  cases hr : runLines parse pid 0 lines (initLoopState (some s) stream) with
  | error e =>
    rw [hr] at h
    simp at h
  | ok st =>
    rw [hr] at h
    have hres := runLines_resolved_some
      (show (initLoopState (some s) stream).resolved = some s from rfl) hr
    cases es with
    | false => simp at h
    | true =>
      simp at h
      rw [← h.2]
      exact hres

/-- A line parser that rejects every line, for concrete scenarios. -/
def parse0 : Str → Except Str Json := fun _ => .error ("expected value".data)

/-- Witness for C10: an execution started with session id "s" and an empty
stream succeeds with exactly that id. -/
theorem c10_prior_session_id_witness :
    prompt_codex parse0 0 (some ("s".data)) [] true [] [] ⟨none, []⟩ =
      .ok ([], some ("s".data)) ∧
    some ("s".data) = some ("s".data) :=
  ⟨rfl, c10_prior_session_id_kept parse0 0 ("s".data) [] true [] [] ⟨none, []⟩
    [] (some ("s".data)) rfl⟩

theorem processLine_blank {parse : Str → Except Str Json} {pid n : Nat}
    {line : Str} (st : LoopState) (ht : trimStr line = []) :
    processLine parse pid n line st = .ok st := by
  unfold processLine
  rw [if_pos ht]

theorem processLine_error_of_parse {parse : Str → Except Str Json}
    {pid n : Nat} {line : Str} (st : LoopState) {e : Str}
    (ht : trimStr line ≠ []) (hp : parse (trimStr line) = .error e) :
    processLine parse pid n line st = .error (msgInvalid n e (trimStr line)) := by
  unfold processLine
  rw [if_neg ht, hp]

theorem processLine_ok_of_parse {parse : Str → Except Str Json}
    (pid n : Nat) {line : Str} (st : LoopState) {event : Json}
    (hp : parse (trimStr line) = .ok event) :
    ∃ st', processLine parse pid n line st = .ok st' := by
  unfold processLine
  by_cases ht : trimStr line = []
  · rw [if_pos ht]
    exact ⟨st, rfl⟩
  · rw [if_neg ht, hp]
    dsimp only
    split
    · exact ⟨_, rfl⟩
    · exact ⟨_, rfl⟩

theorem runLines_abort {parse : Str → Except Str Json} {pid : Nat}
    {pre : List Str} {l : Str} {rest : List Str} {e : Str}
    (hpre : ∀ x ∈ pre, trimStr x = [] ∨ ∃ j, parse (trimStr x) = .ok j)
    (ht : trimStr l ≠ []) (hp : parse (trimStr l) = .error e) :
    ∀ n st, runLines parse pid n (pre ++ l :: rest) st =
      .error (msgInvalid (n + pre.length + 1) e (trimStr l)) := by
  induction pre with
  | nil =>
    intro n st
    rw [List.nil_append]
    unfold runLines
    rw [processLine_error_of_parse st ht hp]
    rfl
  | cons x xs ih =>
    intro n st
    show runLines parse pid n (x :: (xs ++ l :: rest)) st = _
    unfold runLines
    have harith : n + (x :: xs).length + 1 = (n + 1) + xs.length + 1 := by
      simp [List.length_cons]
      omega
    rw [harith]
    rcases hpre x (by simp) with hb | ⟨j, hj⟩
    · rw [processLine_blank st hb]
      exact ih (fun y hy => hpre y (by simp [hy])) (n + 1) st
    · rcases processLine_ok_of_parse pid (n + 1) st hj with ⟨st1, h1⟩
      rw [h1]
      exact ih (fun y hy => hpre y (by simp [hy])) (n + 1) st1

/-- C4 counterexample: the claim says the protocol error names the raw line
text, but the code formats the trimmed line; for the line "not-json " (with
a trailing blank) the raw text does not occur in the error message. -/
theorem c4_counterexample :
    prompt_codex parse0 0 none [("not-json ".data)] true [] [] ⟨none, []⟩ =
      .error (msgInvalid 1 ("expected value".data) ("not-json".data)) ∧
    isSubStr ("not-json ".data)
      (msgInvalid 1 ("expected value".data) ("not-json".data)) = false := by
  constructor
  · rfl
  · decide

/-- C4 (amended): any stdout stream containing a non-blank line that fails
to parse — after any number of blank or parsing lines — aborts the whole
execution (whatever the exit status) with an error naming the 1-based line
number of the offending line, the parser's message, and the trimmed text of
the line (its surrounding whitespace removed); no partial result is
returned. -/
theorem c4_parse_failure_aborts (parse : Str → Except Str Json) (pid : Nat)
    (sid : Option Str) (pre : List Str) (l : Str) (rest : List Str)
    (es : Bool) (est stderr : Str) (stream : PromptStreamState) (e : Str)
    (hpre : ∀ x ∈ pre, trimStr x = [] ∨ ∃ j, parse (trimStr x) = .ok j)
    (ht : trimStr l ≠ []) (hp : parse (trimStr l) = .error e) :
    prompt_codex parse pid sid (pre ++ l :: rest) es est stderr stream =
      .error (msgInvalid (pre.length + 1) e (trimStr l)) := by
  unfold prompt_codex
  rw [runLines_abort hpre ht hp 0 (initLoopState sid stream)]
  simp

/-- Witness for C4 on Scenario B: the single line "not-json" fails on line 1
with the parser message and the line text. -/
theorem c4_parse_failure_witness :
    prompt_codex parse0 3 none [("not-json".data)] true [] [] ⟨none, []⟩ =
      .error (msgInvalid 1 ("expected value".data) ("not-json".data)) := by
  have h := c4_parse_failure_aborts parse0 3 none [] ("not-json".data) [] true
    [] [] ⟨none, []⟩ ("expected value".data) (by simp) (by decide) rfl
  simpa using h

theorem stepFailure_some (event : Json) (m : Str) :
    stepFailure event (some m) = some m := by
  unfold stepFailure
  split <;> simp

theorem stepFailure_or (event : Json) (fm y : Option Str) :
    (stepFailure event fm).or y = fm.or ((stepFailure event none).or y) := by
  cases fm with
  | some m => simp [stepFailure_some]
  | none => simp

theorem processLine_failure {parse : Str → Except Str Json} {pid n : Nat}
    {line : Str} {st st' : LoopState}
    (h : processLine parse pid n line st = .ok st') :
    (trimStr line = [] ∧ st' = st) ∨
    (trimStr line ≠ [] ∧ ∃ event, parse (trimStr line) = .ok event ∧
      st'.failure_message = stepFailure event st.failure_message) := by
  unfold processLine at h
  by_cases ht : trimStr line = []
  · rw [if_pos ht] at h
    cases h
    exact Or.inl ⟨ht, rfl⟩
  · rw [if_neg ht] at h
    cases hp : parse (trimStr line) with
    | error e =>
      rw [hp] at h
      simp at h
    | ok event =>
      rw [hp] at h
      dsimp only at h
      refine Or.inr ⟨ht, event, rfl, ?_⟩
      split at h <;>
        · cases h
          rfl

theorem firstEM_cons_blank (parse : Str → Except Str Json) {l : Str}
    (rest : List Str) (hb : trimStr l = []) :
    firstErrorMessage parse (l :: rest) = firstErrorMessage parse rest := by
  simp only [firstErrorMessage]
  rw [if_pos hb]

theorem firstEM_cons_ok (parse : Str → Except Str Json) {l : Str}
    (rest : List Str) {event : Json} (ht : trimStr l ≠ [])
    (hev : parse (trimStr l) = .ok event) :
    firstErrorMessage parse (l :: rest) =
      (stepFailure event none).or (firstErrorMessage parse rest) := by
  simp only [firstErrorMessage]
  rw [if_neg ht, hev]

theorem runLines_failure_or {parse : Str → Except Str Json} {pid : Nat}
    {lines : List Str} {n : Nat} {st st' : LoopState}
    (h : runLines parse pid n lines st = .ok st') :
    st'.failure_message =
      st.failure_message.or (firstErrorMessage parse lines) := by
  induction lines generalizing n st with
  | nil =>
    unfold runLines at h
    cases h
    simp [firstErrorMessage]
  | cons l rest ih =>
    unfold runLines at h
    cases hp : processLine parse pid (n + 1) l st with
    | error e =>
      rw [hp] at h
      simp at h
    | ok st1 =>
      rw [hp] at h
      have h1 := ih h
      rcases processLine_failure hp with ⟨hb, rfl⟩ | ⟨ht, event, hev, hfm⟩
      · rw [firstEM_cons_blank parse rest hb]
        exact h1
      · rw [firstEM_cons_ok parse rest ht hev, h1, hfm]
        exact stepFailure_or event st.failure_message _

/-- C5: when the event loop completes (every line blank or parsed) and the
process exits with non-zero status, the execution fails with the message
chosen by priority: the collected stderr text when non-empty, else the
first captured error-event message, else the generic exited-with-status
message; in particular collected stderr "boom" yields exactly "boom". -/
theorem c5_nonzero_exit_message (parse : Str → Except Str Json) (pid : Nat)
    (sid : Option Str) (lines : List Str) (est stderr : Str)
    (stream : PromptStreamState) (st : LoopState)
    (hrun : runLines parse pid 0 lines (initLoopState sid stream) = .ok st) :
    prompt_codex parse pid sid lines false est stderr stream =
      .error (if stderr ≠ [] then stderr
              else (firstErrorMessage parse lines).getD
                (("codex exited with ".data) ++ est)) ∧
    (stderr = "boom".data →
      prompt_codex parse pid sid lines false est stderr stream =
        .error ("boom".data)) := by
  have hfm : st.failure_message = firstErrorMessage parse lines := by
    have h := runLines_failure_or hrun
    simpa [initLoopState] using h
  have hmain : prompt_codex parse pid sid lines false est stderr stream =
      .error (if stderr ≠ [] then stderr
              else (firstErrorMessage parse lines).getD
                (("codex exited with ".data) ++ est)) := by
    unfold prompt_codex
    rw [hrun]
    simp [hfm]
  refine ⟨hmain, fun hb => ?_⟩
  rw [hmain, hb]
  simp

/-- Witness for C5 on Scenario C: exit failure with collected stderr "boom"
and an empty stream fails with exactly "boom". -/
theorem c5_nonzero_exit_witness :
    prompt_codex parse0 0 none [] false ("exit status: 1".data) ("boom".data)
      ⟨none, []⟩ = .error ("boom".data) :=
  (c5_nonzero_exit_message parse0 0 none [] ("exit status: 1".data)
    ("boom".data) ⟨none, []⟩ (initLoopState none ⟨none, []⟩) rfl).2 rfl

/-- The first event of Scenario A: type "thread.started", thread_id "abc". -/
def eventThreadStarted : Json :=
  Json.obj [("type".data, Json.str ("thread.started".data)),
            ("thread_id".data, Json.str ("abc".data))]

/-- The second event of Scenario A: type "output_text", output_text "Hello". -/
def eventOutputText : Json :=
  Json.obj [("type".data, Json.str ("output_text".data)),
            ("output_text".data, Json.str ("Hello".data))]

theorem collect_eventThreadStarted (r : ResponseBuffers) :
    collect_response_text eventThreadStarted r = r := by
  unfold eventThreadStarted
  rw [collect_response_text]
  rfl

theorem collect_eventOutputText (r : ResponseBuffers) :
    collect_response_text eventOutputText r = r.push_fragment ("Hello".data) := by
  unfold eventOutputText
  rw [collect_response_text]
  rfl

/-- C3: an execution with no prior session id whose stdout consists of a
thread.started event line with thread_id "abc" followed by an output_text
event line carrying "Hello", exiting with status 0, returns the pair
("Hello", some "abc"). -/
theorem c3_scenario_a (parse : Str → Except Str Json) (pid : Nat)
    (est stderr : Str) (stream : PromptStreamState) (l1 l2 : Str)
    (h1t : trimStr l1 ≠ []) (h1 : parse (trimStr l1) = .ok eventThreadStarted)
    (h2t : trimStr l2 ≠ []) (h2 : parse (trimStr l2) = .ok eventOutputText) :
    prompt_codex parse pid none [l1, l2] true est stderr stream =
      .ok ("Hello".data, some ("abc".data)) := by
  have e1 : processLine parse pid 1 l1 (initLoopState none stream) =
      .ok ⟨initBuffers, none, some ("abc".data), stream⟩ := by
    unfold processLine initLoopState
    rw [if_neg h1t, h1]
    dsimp only
    rw [collect_eventThreadStarted]
    rw [if_neg (by decide)]
    rfl
  have e2 : processLine parse pid 2 l2
      (⟨initBuffers, none, some ("abc".data), stream⟩ : LoopState) =
      .ok ⟨initBuffers.push_fragment ("Hello".data), none, some ("abc".data),
        (stream.update pid
          ((initBuffers.push_fragment ("Hello".data)).visible_text.1)).2⟩ := by
    unfold processLine
    rw [if_neg h2t, h2]
    dsimp only
    rw [collect_eventOutputText]
    rw [if_pos (by decide)]
    rfl
  have hrun : runLines parse pid 0 [l1, l2] (initLoopState none stream) =
      .ok ⟨initBuffers.push_fragment ("Hello".data), none, some ("abc".data),
        (stream.update pid
          ((initBuffers.push_fragment ("Hello".data)).visible_text.1)).2⟩ := by
    unfold runLines
    norm_num
    rw [e1]
    unfold runLines
    rw [e2]
    unfold runLines
    rfl
  unfold prompt_codex
  rw [hrun]
  dsimp only
  rw [if_neg (by decide)]
  have hresp : (initBuffers.push_fragment ("Hello".data)).into_response =
      "Hello".data := by decide
  rw [hresp]

/-- The raw first stdout line of Scenario A (braces written as escapes). -/
def lineThreadStarted : Str :=
  "\x7b\"type\":\"thread.started\",\"thread_id\":\"abc\"\x7d".data

/-- The raw second stdout line of Scenario A (braces written as escapes). -/
def lineOutputText : Str :=
  "\x7b\"type\":\"output_text\",\"output_text\":\"Hello\"\x7d".data

/-- A parser recognising exactly the two Scenario A lines. -/
def parseScenarioA : Str → Except Str Json := fun s =>
  if s = lineThreadStarted then .ok eventThreadStarted
  else if s = lineOutputText then .ok eventOutputText
  else .error ("expected value".data)

/-- Witness for C3 on the concrete Scenario A stream. -/
theorem c3_scenario_a_witness :
    prompt_codex parseScenarioA 0 none [lineThreadStarted, lineOutputText]
      true [] [] ⟨none, []⟩ = .ok ("Hello".data, some ("abc".data)) :=
  c3_scenario_a parseScenarioA 0 [] [] ⟨none, []⟩ lineThreadStarted
    lineOutputText (by decide) rfl (by decide) rfl
